import Mathlib

/-!
Verification of the color-analyzer core (`src/app.py`) against its
natural-language specification.

The Python source is shallowly embedded: real-number arithmetic is modelled
over `ℚ` (every constant in the source is an exact decimal literal, so the
idealised arithmetic is exact), machine integers over `ℤ`/`ℕ`, and the one
fallible operation (division by a wavelength that may be zero) over `Option`.
The external libraries the app calls (PIL's `resize`, sklearn's `KMeans`)
are not part of the repository; where a claim depends on them they appear as
explicit function parameters or as hypotheses stating their documented
contract, never as stubs of repository code.
-/

namespace ColorAnalyzer
/-- Planck constant, exactly the source literal `H_PLANCK = 6.626e-34`. -/
def H_PLANCK : ℚ := 6.626e-34

/-- Speed of light, exactly the source literal `C_LIGHT = 3.00e8`. -/
def C_LIGHT : ℚ := 3.00e8

/-- Electron-volts per joule, exactly the source literal `EV_PER_JOULE = 6.242e18`. -/
def EV_PER_JOULE : ℚ := 6.242e18

/-- Embedding of `rgb_to_wavelength` (src/app.py lines 34-45): the piecewise
dominant-channel rule followed by the clamp `max(380, min(750, wavelength))`.
Channels are the integers the source passes in (`color.astype(int)`), and
Python's true division `r/255` is exact rational division. -/
def rgb_to_wavelength (r g b : ℤ) : ℚ :=
  let wavelength : ℚ :=
    if r > g ∧ r > b then 620 + 130 * ((r : ℚ) / 255)
    else if g > r ∧ g > b then 495 + 125 * ((g : ℚ) / 255)
    else if b > r ∧ b > g then 380 + 115 * ((b : ℚ) / 255)
    else 550
  max 380 (min 750 wavelength)

/-- Embedding of `calculate_photon_energy` (src/app.py lines 47-51):
`wavelength_m = wavelength_nm * 1e-9; energy_joule = H*C / wavelength_m;
return energy_joule * EV_PER_JOULE`. The source has no guard of its own; the
only failure is Python's division by zero, so the embedding returns `none`
exactly when the converted wavelength is zero. -/
def calculate_photon_energy (wavelength_nm : ℚ) : Option ℚ :=
  let wavelength_m := wavelength_nm * 1e-9
  if wavelength_m = 0 then none
  else some ((H_PLANCK * C_LIGHT) / wavelength_m * EV_PER_JOULE)

/-- The wavelength approximator as the specification words it (spec §4.3):
the dominant-channel piecewise value, then the safety-net clamp.  Kept as a
separate definition so that agreement with the source embedding is an
explicit theorem rather than an identification by construction. -/
def approximateWavelength_spec (r g b : ℤ) : ℚ :=
  let pieced : ℚ :=
    if r > g ∧ r > b then 620 + 130 * ((r : ℚ) / 255)
    else if g > r ∧ g > b then 495 + 125 * ((g : ℚ) / 255)
    else if b > r ∧ b > g then 380 + 115 * ((b : ℚ) / 255)
    else 550
  max 380 (min 750 pieced)

/-- One lowercase hexadecimal digit character, as Python's `'{:02x}'.format`
renders a digit value: `0`-`9` for values below ten, `a`-`f` above. -/
def hexDigitChar (n : ℕ) : Char :=
  if n < 10 then Char.ofNat (48 + n) else Char.ofNat (87 + n)

/-- Python's `'{:02x}'.format(n)` for a channel value `0 ≤ n ≤ 255`: two
zero-padded lowercase hexadecimal digits. -/
def format02x (n : ℕ) : List Char :=
  [hexDigitChar (n / 16), hexDigitChar (n % 16)]

/-- Embedding of the hex-code construction in `data_list`
(src/app.py line 121): `'#{:02x}{:02x}{:02x}'.format(*color_int)`.
The channels the source passes are the truncated integer channels, which for
any real image lie in [0,255]; values are taken through `Int.toNat`, which
agrees with the source on that domain. -/
def hexCode (r g b : ℤ) : String :=
  ⟨'#' :: (format02x r.toNat ++ format02x g.toNat ++ format02x b.toNat)⟩

/-- A character is a lowercase hexadecimal digit. -/
def isLowerHexDigit (c : Char) : Bool :=
  (decide ('0' ≤ c) && decide (c ≤ '9')) || (decide ('a' ≤ c) && decide (c ≤ 'f'))

/-- Embedding of `np.histogram(data, bins=arange(0, u+1))` for integer data: `u` bins with
edges `0, 1, …, u`; every bin is half-open `[i, i+1)` except the last, which
is closed `[u-1, u]`. -/
def npHistogram (data : List ℕ) (u : ℕ) : List ℕ :=
  (List.range u).map (fun i =>
    if i + 1 = u then data.countP (fun x => decide (i ≤ x) && decide (x ≤ u))
    else data.count i)

/-- The histogram-and-normalise tail of `analyze_colors`
(src/app.py lines 61-64): `numLabels = arange(0, len(unique(labels)) + 1)`,
`hist = histogram(labels, bins=numLabels)`, `hist /= hist.sum()`.
`List.dedup` plays the role of `np.unique` (only its length is used). -/
def analyze_colors_hist (labels : List ℕ) : List ℚ :=
  (npHistogram labels labels.dedup.length).map
    (fun c : ℕ => (c : ℚ) / ((npHistogram labels labels.dedup.length).sum : ℚ))

/-- numpy `.astype(int)`: truncation toward zero. -/
def astype_int (x : ℚ) : ℤ :=
  if 0 ≤ x then ⌊x⌋ else -⌊-x⌋

/-- One entry of the `data_list` the source builds (src/app.py lines 110-122):
percent, truncated integer color, wavelength, energy and hex code. -/
structure RecordM where
  percent : ℚ
  color : ℤ × ℤ × ℤ
  wavelength : ℚ
  energy : ℚ
  hex : String
deriving DecidableEq

/-- Builds one record from a `(percent, color)` pair exactly as the loop body
of src/app.py lines 111-122 does.  The energy is defined (`isSome`) for every
wavelength the pipeline produces — see `C4_energy_error_behaviour` — so the
`getD 0` default is never consulted. -/
def mkRecord (percent : ℚ) (c : ℚ × ℚ × ℚ) : RecordM :=
  let r := astype_int c.1
  let g := astype_int c.2.1
  let b := astype_int c.2.2
  let w := rgb_to_wavelength r g b
  { percent := percent
    color := (r, g, b)
    wavelength := w
    energy := (calculate_photon_energy w).getD 0
    hex := hexCode r g b }

/-- Embedding of `data_list` (src/app.py lines 110-122): one record per
`zip(hist, centers)` pair — note `zip` stops at the shorter list. -/
def data_list (hist : List ℚ) (centers : List (ℚ × ℚ × ℚ)) : List RecordM :=
  (hist.zip centers).map (fun pc => mkRecord pc.1 pc.2)

/-- Embedding of `sorted(data_list, key=lambda x: x['percent'], reverse=True)`
(src/app.py line 138).  Python's `sorted` is a stable sort; with
`reverse=True` it places higher keys first while ties keep their original
relative order, which is exactly `mergeSort` with the relation
"`a` may precede `b` iff `b.percent ≤ a.percent`"; the input list is not
mutated (Python's `sorted` returns a fresh list). -/
def byShareDesc (l : List RecordM) : List RecordM :=
  l.mergeSort (fun a b => decide (b.percent ≤ a.percent))

/-- Embedding of `sorted(data_list, key=lambda x: x['energy'], reverse=True)`
(src/app.py line 135), same stable-descending reading. -/
def byEnergyDesc (l : List RecordM) : List RecordM :=
  l.mergeSort (fun a b => decide (b.energy ≤ a.energy))

/-- A concrete record used to exercise the sorting theorems. -/
def demoRecA : RecordM :=
  { percent := 1/2, color := (1, 2, 3), wavelength := 550, energy := 2, hex := "#010203" }

/-- A second concrete record, tying with `demoRecA` on both keys. -/
def demoRecB : RecordM :=
  { percent := 1/2, color := (4, 5, 6), wavelength := 550, energy := 2, hex := "#040506" }

/-- A concrete two-record base sequence. -/
def demoList : List RecordM := [demoRecA, demoRecB]

/-- Embedding of `analyze_colors` (src/app.py lines 53-66) with its two external
collaborators abstracted: `resize` stands for PIL's
`image.resize((v, v))` plus the numpy reshape into a flat sample list, and
`km` stands for `KMeans(n_clusters=k, n_init=10, random_state=seed).fit`,
returning the per-sample labels and the cluster centers.  sklearn's KMeans
with a fixed `random_state` is documented to be a deterministic function of
its input, which is what a plain Lean function expresses; the source always
passes `random_state=42`, so the seed argument is fixed to 42 here just as
on line 58. -/
def analyze_colors_model {Image : Type}
    (resize : Image → ℕ → List (ℚ × ℚ × ℚ))
    (km : List (ℚ × ℚ × ℚ) → ℕ → ℕ → List ℕ × List (ℚ × ℚ × ℚ))
    (image : Image) (k resize_val : ℕ) : List ℚ × List (ℚ × ℚ × ℚ) :=
  let samples := resize image resize_val
  let fit := km samples k 42
  (analyze_colors_hist fit.1, fit.2)

/-- The full record-producing pipeline: `analyze_colors` followed by the
`data_list` construction (src/app.py lines 107-122). -/
def analysisRecords {Image : Type}
    (resize : Image → ℕ → List (ℚ × ℚ × ℚ))
    (km : List (ℚ × ℚ × ℚ) → ℕ → ℕ → List ℕ × List (ℚ × ℚ × ℚ))
    (image : Image) (k resize_val : ℕ) : List RecordM :=
  let res := analyze_colors_model resize km image k resize_val
  data_list res.1 res.2

/-- Concrete stand-in for the resize collaborator: the spec §8's 2×2 image. -/
def demoResize : Unit → ℕ → List (ℚ × ℚ × ℚ) :=
  fun _ _ => [(255, 0, 0), (255, 0, 0), (0, 0, 255), (0, 0, 255)]

/-- Concrete stand-in for the clusterer on that image. -/
def demoKm : List (ℚ × ℚ × ℚ) → ℕ → ℕ → List ℕ × List (ℚ × ℚ × ℚ) :=
  fun _ _ _ => ([0, 0, 1, 1], [(255, 0, 0), (0, 0, 255)])

theorem rgb_to_wavelength_ge (r g b : ℤ) : 380 ≤ rgb_to_wavelength r g b :=
  le_max_left _ _

theorem rgb_to_wavelength_le (r g b : ℤ) : rgb_to_wavelength r g b ≤ 750 :=
  max_le (by norm_num) (min_le_left _ _)

/-- C1: for every integer color with channels in [0,255] the source
`rgb_to_wavelength` computes exactly the spec's piecewise dominant-channel
value followed by the clamp, its result lies in [380, 750], and the
greyscale input (120,120,120) yields exactly 550. -/
theorem C1_wavelength_piecewise (r g b : ℤ)
    (hr0 : 0 ≤ r) (hr1 : r ≤ 255) (hg0 : 0 ≤ g) (hg1 : g ≤ 255)
    (hb0 : 0 ≤ b) (hb1 : b ≤ 255) :
    rgb_to_wavelength r g b = approximateWavelength_spec r g b ∧
    380 ≤ rgb_to_wavelength r g b ∧ rgb_to_wavelength r g b ≤ 750 ∧
    rgb_to_wavelength 120 120 120 = 550 := by
  refine ⟨rfl, rgb_to_wavelength_ge r g b, rgb_to_wavelength_le r g b, ?_⟩
  norm_num [rgb_to_wavelength]

/-- Witness for C1 at the concrete color (10, 200, 5). -/
theorem C1_wavelength_piecewise_witness :
    rgb_to_wavelength 10 200 5 = approximateWavelength_spec 10 200 5 ∧
    380 ≤ rgb_to_wavelength 10 200 5 ∧ rgb_to_wavelength 10 200 5 ≤ 750 ∧
    rgb_to_wavelength 120 120 120 = 550 :=
  C1_wavelength_piecewise 10 200 5 (by norm_num) (by norm_num) (by norm_num)
    (by norm_num) (by norm_num) (by norm_num)

/-- C2: for every positive wavelength the energy calculator returns exactly
(6.626e-34 × 3.00e8) / (w × 1e-9) × 6.242e18 electron-volts, with no other
terms. -/
theorem C2_photon_energy_formula (w : ℚ) (hw : 0 < w) :
    calculate_photon_energy w =
      some ((6.626e-34 * 3.00e8) / (w * 1e-9) * 6.242e18) := by
  have hne : w * 1e-9 ≠ 0 := by positivity
  simp [calculate_photon_energy, hne, H_PLANCK, C_LIGHT, EV_PER_JOULE]

/-- Witness for C2 at wavelength 500 nm. -/
theorem C2_photon_energy_formula_witness :
    calculate_photon_energy 500 =
      some ((6.626e-34 * 3.00e8) / (500 * 1e-9) * 6.242e18) :=
  C2_photon_energy_formula 500 (by norm_num)

/-- C8: the photon energy is strictly decreasing in the wavelength over
positive wavelengths: for 0 < w1 < w2 the computed energies satisfy
energy(w2) < energy(w1). -/
theorem C8_energy_strict_antitone (w1 w2 e1 e2 : ℚ)
    (h1 : 0 < w1) (h12 : w1 < w2)
    (he1 : calculate_photon_energy w1 = some e1)
    (he2 : calculate_photon_energy w2 = some e2) :
    e2 < e1 := by
  have h2 : 0 < w2 := h1.trans h12
  rw [C2_photon_energy_formula w1 h1] at he1
  rw [C2_photon_energy_formula w2 h2] at he2
  obtain rfl : _ = e1 := Option.some.inj he1
  obtain rfl : _ = e2 := Option.some.inj he2
  have hA : (0 : ℚ) < 6.626e-34 * 3.00e8 := by norm_num
  have hEV : (0 : ℚ) < 6.242e18 := by norm_num
  have hm1 : (0 : ℚ) < w1 * 1e-9 := by positivity
  have hm2 : (0 : ℚ) < w2 * 1e-9 := by positivity
  have hlt : w1 * 1e-9 < w2 * 1e-9 := by
    have : (0 : ℚ) < 1e-9 := by norm_num
    exact (mul_lt_mul_right this).mpr h12
  have := div_lt_div_of_pos_left hA hm1 hlt
  exact (mul_lt_mul_right hEV).mpr this

/-- Witness for C8 at the wavelengths 400 nm and 500 nm: both energies are
computed by the source formula and strictly decrease. -/
theorem C8_energy_strict_antitone_witness :
    calculate_photon_energy 400 =
      some ((6.626e-34 * 3.00e8) / (400 * 1e-9) * 6.242e18) ∧
    calculate_photon_energy 500 =
      some ((6.626e-34 * 3.00e8) / (500 * 1e-9) * 6.242e18) ∧
    ((6.626e-34 * 3.00e8 : ℚ)) / (500 * 1e-9) * 6.242e18 <
      ((6.626e-34 * 3.00e8 : ℚ)) / (400 * 1e-9) * 6.242e18 := by
  have h4 := C2_photon_energy_formula 400 (by norm_num)
  have h5 := C2_photon_energy_formula 500 (by norm_num)
  exact ⟨h4, h5, C8_energy_strict_antitone 400 500 _ _ (by norm_num) (by norm_num) h4 h5⟩

/-- Counterexample to C4 as stated: for the non-positive wavelength −5 the
source function returns normally (there is no DomainError guard in the code;
a negative wavelength just produces a negative energy), so "fails whenever
wavelength ≤ 0" is false. -/
theorem C4_counterexample :
    (calculate_photon_energy (-5)).isSome = true := by
  norm_num [calculate_photon_energy]

/-- C4 amended: the source energy calculator has no explicit guard; it fails
(Python division by zero) exactly when the wavelength is 0 and returns
normally for every nonzero wavelength, negative ones included.  In the
composed pipeline the failure is unreachable: every wavelength produced by
`rgb_to_wavelength` is at least 380, so the calculator always returns a
value there. -/
theorem C4_energy_error_behaviour :
    (∀ w : ℚ, calculate_photon_energy w = none ↔ w = 0) ∧
    (∀ r g b : ℤ, (calculate_photon_energy (rgb_to_wavelength r g b)).isSome = true) := by
  constructor
  · intro w
    constructor
    · intro h
      by_contra hw
      have hne : w * 1e-9 ≠ 0 := by
        simp only [mul_ne_zero_iff]
        exact ⟨hw, by norm_num⟩
      simp [calculate_photon_energy, hne] at h
    · intro h
      subst h
      simp [calculate_photon_energy]
  · intro r g b
    have h380 : (380 : ℚ) ≤ rgb_to_wavelength r g b := rgb_to_wavelength_ge r g b
    have hpos : (0 : ℚ) < rgb_to_wavelength r g b := by linarith
    rw [C2_photon_energy_formula _ hpos]
    rfl

theorem hexDigitChar_isLowerHex (n : ℕ) (hn : n < 16) :
    isLowerHexDigit (hexDigitChar n) = true := by
  have : ∀ m : Fin 16, isLowerHexDigit (hexDigitChar m.val) = true := by decide
  exact this ⟨n, hn⟩

theorem format02x_isLowerHex (n : ℕ) (hn : n ≤ 255) (c : Char)
    (hc : c ∈ format02x n) : isLowerHexDigit c = true := by
  have h1 : n / 16 < 16 := Nat.div_lt_of_lt_mul (by omega)
  have h2 : n % 16 < 16 := Nat.mod_lt _ (by norm_num)
  simp only [format02x, List.mem_cons, List.mem_singleton] at hc
  rcases hc with rfl | rfl | h
  · exact hexDigitChar_isLowerHex _ h1
  · exact hexDigitChar_isLowerHex _ h2
  · cases h

/-- C9: for channels in [0,255] the derived hex code is exactly `#` followed
by six lowercase hexadecimal digits (two zero-padded digits per channel in
r, g, b order), and the color (10, 200, 5) yields `#0ac805`. -/
theorem C9_hex_format (r g b : ℤ)
    (hr0 : 0 ≤ r) (hr1 : r ≤ 255) (hg0 : 0 ≤ g) (hg1 : g ≤ 255)
    (hb0 : 0 ≤ b) (hb1 : b ≤ 255) :
    (hexCode r g b).length = 7 ∧
    (hexCode r g b).toList.head? = some '#' ∧
    (∀ c ∈ (hexCode r g b).toList.drop 1, isLowerHexDigit c = true) ∧
    hexCode 10 200 5 = "#0ac805" := by
  have hrn : r.toNat ≤ 255 := by omega
  have hgn : g.toNat ≤ 255 := by omega
  have hbn : b.toNat ≤ 255 := by omega
  refine ⟨?_, ?_, ?_, ?_⟩
  · simp [hexCode, String.length, format02x]
  · simp [hexCode]
  · intro c hc
    simp only [hexCode, String.toList, List.drop_succ_cons, List.drop_zero,
      List.mem_append] at hc
    rcases hc with (hc | hc) | hc
    · exact format02x_isLowerHex _ hrn c hc
    · exact format02x_isLowerHex _ hgn c hc
    · exact format02x_isLowerHex _ hbn c hc
  · decide

/-- Witness for C9 at the concrete color (10, 200, 5). -/
theorem C9_hex_format_witness :
    (hexCode 10 200 5).length = 7 ∧
    (hexCode 10 200 5).toList.head? = some '#' ∧
    (∀ c ∈ (hexCode 10 200 5).toList.drop 1, isLowerHexDigit c = true) ∧
    hexCode 10 200 5 = "#0ac805" :=
  C9_hex_format 10 200 5 (by norm_num) (by norm_num) (by norm_num)
    (by norm_num) (by norm_num) (by norm_num)

theorem labels_dedup_length (labels : List ℕ) (k : ℕ)
    (hlt : ∀ l ∈ labels, l < k) (hsurj : ∀ i, i < k → i ∈ labels) :
    labels.dedup.length = k := by
  have h1 : labels.toFinset = Finset.range k := by
    ext x
    simp only [List.mem_toFinset, Finset.mem_range]
    exact ⟨hlt x, hsurj x⟩
  have h2 := List.card_toFinset (l := labels)
  rw [h1, Finset.card_range] at h2
  exact h2.symm

theorem npHistogram_eq_counts (labels : List ℕ) (k : ℕ)
    (hlt : ∀ l ∈ labels, l < k) :
    npHistogram labels k = (List.range k).map (fun i => labels.count i) := by
  apply List.map_congr_left
  intro i hi
  rw [List.mem_range] at hi
  by_cases h : i + 1 = k
  · rw [if_pos h, List.count_eq_countP]
    apply List.countP_congr
    intro x hx
    have hxk := hlt x hx
    simp only [Bool.and_eq_true, decide_eq_true_eq, beq_iff_eq]
    omega
  · rw [if_neg h]

theorem list_sum_map_add {β : Type} (l : List β) (f g : β → ℕ) :
    (l.map (fun x => f x + g x)).sum = (l.map f).sum + (l.map g).sum := by
  induction l with
  | nil => rfl
  | cons x t ih =>
    simp only [List.map_cons, List.sum_cons, ih]
    omega

theorem sum_map_indicator (k a : ℕ) (ha : a < k) :
    ((List.range k).map (fun i => if a == i then 1 else 0)).sum = 1 := by
  induction k with
  | zero => omega
  | succ n ih =>
    rw [List.range_succ, List.map_append, List.sum_append]
    rcases Nat.lt_succ_iff_lt_or_eq.mp ha with h | h
    · rw [ih h]
      have hne : a ≠ n := Nat.ne_of_lt h
      simp [hne]
    · subst h
      have hz : ((List.range a).map (fun i => if a == i then 1 else 0)).sum = 0 := by
        apply List.sum_eq_zero
        intro x hx
        simp only [List.mem_map, List.mem_range] at hx
        obtain ⟨i, hi, rfl⟩ := hx
        simp [Nat.ne_of_gt hi]
      rw [hz]
      simp

theorem sum_map_count (labels : List ℕ) (k : ℕ)
    (hlt : ∀ l ∈ labels, l < k) :
    ((List.range k).map (fun i => labels.count i)).sum = labels.length := by
  induction labels with
  | nil => simp
  | cons a t ih =>
    have hat : ∀ l ∈ t, l < k := fun l hl => hlt l (List.mem_cons_of_mem _ hl)
    have hak : a < k := hlt a (List.mem_cons_self _ _)
    have hcc : ∀ i : ℕ, (a :: t).count i = t.count i + if a == i then 1 else 0 :=
      fun i => List.count_cons i a t
    calc ((List.range k).map (fun i => (a :: t).count i)).sum
        = ((List.range k).map (fun i => t.count i + if a == i then 1 else 0)).sum := by
          exact congrArg List.sum (List.map_congr_left (fun i _ => hcc i))
      _ = ((List.range k).map (fun i => t.count i)).sum
            + ((List.range k).map (fun i => if a == i then 1 else 0)).sum :=
          list_sum_map_add _ _ _
      _ = t.length + 1 := by rw [ih hat, sum_map_indicator k a hak]
      _ = (a :: t).length := by simp

theorem list_sum_map_div (l : List ℕ) (d : ℚ) :
    (l.map (fun c : ℕ => (c : ℚ) / d)).sum = ((l.sum : ℕ) : ℚ) / d := by
  induction l with
  | nil => simp
  | cons x t ih =>
    simp only [List.map_cons, List.sum_cons, ih, Nat.cast_add, add_div]

/-- C3: whenever the clusterer meets its contract — every sample label is
below `k` and every cluster index below `k` receives at least one sample
(sklearn's KMeans guarantees this when `3 ≤ k` is at most the number of
distinct colors) and it returns `k` centers — the normalised histogram has
exactly `k` entries, entry `i` equals `count of label i / total samples`,
the entries sum to exactly 1 (hence within any tolerance), and the record
list built from it has exactly `k` records. -/
theorem C3_cluster_shares (labels : List ℕ) (centers : List (ℚ × ℚ × ℚ)) (k : ℕ)
    (hk3 : 3 ≤ k) (hcen : centers.length = k)
    (hlt : ∀ l ∈ labels, l < k) (hsurj : ∀ i, i < k → i ∈ labels) :
    analyze_colors_hist labels =
      (List.range k).map (fun i => (labels.count i : ℚ) / (labels.length : ℚ)) ∧
    (analyze_colors_hist labels).length = k ∧
    (analyze_colors_hist labels).sum = 1 ∧
    (data_list (analyze_colors_hist labels) centers).length = k := by
  have hk0 : 0 < k := by omega
  have hne : labels ≠ [] := by
    intro hnil
    have := hsurj 0 hk0
    rw [hnil] at this
    cases this
  have hlen0 : 0 < labels.length := List.length_pos.mpr hne
  have hu : labels.dedup.length = k := labels_dedup_length labels k hlt hsurj
  have hhist : npHistogram labels labels.dedup.length
      = (List.range k).map (fun i => labels.count i) := by
    rw [hu]
    exact npHistogram_eq_counts labels k hlt
  have hsum : ((List.range k).map (fun i => labels.count i)).sum = labels.length :=
    sum_map_count labels k hlt
  have hmain : analyze_colors_hist labels =
      (List.range k).map (fun i => (labels.count i : ℚ) / (labels.length : ℚ)) := by
    rw [analyze_colors_hist, hhist, hsum, List.map_map]
    rfl
  refine ⟨hmain, ?_, ?_, ?_⟩
  · rw [hmain]
    simp
  · rw [hmain]
    have : (List.range k).map (fun i => (labels.count i : ℚ) / (labels.length : ℚ))
        = ((List.range k).map (fun i => labels.count i)).map
            (fun c : ℕ => (c : ℚ) / (labels.length : ℚ)) := by
      rw [List.map_map]
      rfl
    rw [this, list_sum_map_div, hsum]
    have : ((labels.length : ℕ) : ℚ) ≠ 0 := by
      exact_mod_cast Nat.pos_iff_ne_zero.mp hlen0
    field_simp
  · rw [data_list, List.length_map, List.length_zip, hcen]
    rw [hmain]
    simp

/-- Witness for C3: labels [0,1,2,0] with k = 3 and three centers. -/
theorem C3_cluster_shares_witness :
    analyze_colors_hist [0, 1, 2, 0] =
      (List.range 3).map (fun i => (([0, 1, 2, 0] : List ℕ).count i : ℚ) / ((4 : ℕ) : ℚ)) ∧
    (analyze_colors_hist [0, 1, 2, 0]).length = 3 ∧
    (analyze_colors_hist [0, 1, 2, 0]).sum = 1 ∧
    (data_list (analyze_colors_hist [0, 1, 2, 0])
      [(255, 0, 0), (0, 255, 0), (0, 0, 255)]).length = 3 :=
  C3_cluster_shares [0, 1, 2, 0] [(255, 0, 0), (0, 255, 0), (0, 0, 255)] 3
    (by norm_num) (by norm_num) (by decide) (by decide)

/-- C5, evaluated at the failing input: with four samples in only two
distinct colors the clusterer labels them `[0,0,1,1]` although `k = 3` was
requested.  `np.unique` then has length 2, the histogram has 2 bins while
there are 3 centers, and `zip` silently truncates `data_list` to 2 records.
No error value exists anywhere in this path — the embedding is total — so
the pipeline returns fewer records than requested without signalling it,
contradicting the claimed `DegenerateInputError` (or explicit K-reduction)
policy. -/
theorem C5_silent_truncation :
    (analyze_colors_hist [0, 0, 1, 1]).length = 2 ∧
    ([(255, 0, 0), (0, 0, 255), (120, 120, 120)] : List (ℚ × ℚ × ℚ)).length = 3 ∧
    (data_list (analyze_colors_hist [0, 0, 1, 1])
      [(255, 0, 0), (0, 0, 255), (120, 120, 120)]).length = 2 := by
  refine ⟨?_, by simp, ?_⟩
  · simp [analyze_colors_hist, npHistogram]
  · rw [data_list, List.length_map, List.length_zip]
    have : (analyze_colors_hist [0, 0, 1, 1]).length = 2 := by
      simp [analyze_colors_hist, npHistogram]
    rw [this]
    simp

theorem shareLE_trans : ∀ a b c : RecordM,
    decide (b.percent ≤ a.percent) → decide (c.percent ≤ b.percent) →
    decide (c.percent ≤ a.percent) := by
  intro a b c hab hbc
  simp only [decide_eq_true_eq] at *
  exact hbc.trans hab

theorem shareLE_total : ∀ a b : RecordM,
    decide (b.percent ≤ a.percent) || decide (a.percent ≤ b.percent) := by
  intro a b
  simp only [Bool.or_eq_true, decide_eq_true_eq]
  exact le_total _ _

theorem energyLE_trans : ∀ a b c : RecordM,
    decide (b.energy ≤ a.energy) → decide (c.energy ≤ b.energy) →
    decide (c.energy ≤ a.energy) := by
  intro a b c hab hbc
  simp only [decide_eq_true_eq] at *
  exact hbc.trans hab

theorem energyLE_total : ∀ a b : RecordM,
    decide (b.energy ≤ a.energy) || decide (a.energy ≤ b.energy) := by
  intro a b
  simp only [Bool.or_eq_true, decide_eq_true_eq]
  exact le_total _ _

/-- C6: each derived view is a permutation of the base record sequence, its
key is non-increasing along the view, and any two records that appear in
creation order with equal keys still appear in that order in the view
(stability).  The base sequence itself is untouched: the embedded `sorted`
is a pure function of the base list, as Python's `sorted` builds a new
list. -/
theorem C6_sorted_views (l : List RecordM) :
    (byShareDesc l).Perm l ∧
    (byShareDesc l).Pairwise (fun a b => b.percent ≤ a.percent) ∧
    (∀ a b : RecordM, List.Sublist [a, b] l → a.percent = b.percent →
      List.Sublist [a, b] (byShareDesc l)) ∧
    (byEnergyDesc l).Perm l ∧
    (byEnergyDesc l).Pairwise (fun a b => b.energy ≤ a.energy) ∧
    (∀ a b : RecordM, List.Sublist [a, b] l → a.energy = b.energy →
      List.Sublist [a, b] (byEnergyDesc l)) := by
  refine ⟨List.mergeSort_perm l _, ?_, ?_, List.mergeSort_perm l _, ?_, ?_⟩
  · exact (List.sorted_mergeSort shareLE_trans shareLE_total l).imp
      (fun h => by simpa using h)
  · intro a b hsub heq
    exact List.pair_sublist_mergeSort shareLE_trans shareLE_total
      (by simpa using heq.ge) hsub
  · exact (List.sorted_mergeSort energyLE_trans energyLE_total l).imp
      (fun h => by simpa using h)
  · intro a b hsub heq
    exact List.pair_sublist_mergeSort energyLE_trans energyLE_total
      (by simpa using heq.ge) hsub

/-- Witness for C6 on a concrete record list with tied keys. -/
theorem C6_sorted_views_witness :
    (byShareDesc demoList).Perm demoList ∧
    List.Sublist [demoRecA, demoRecB] (byShareDesc demoList) ∧
    List.Sublist [demoRecA, demoRecB] (byEnergyDesc demoList) :=
  ⟨(C6_sorted_views demoList).1,
   (C6_sorted_views demoList).2.2.1 demoRecA demoRecB (List.Sublist.refl _) rfl,
   (C6_sorted_views demoList).2.2.2.2.2 demoRecA demoRecB (List.Sublist.refl _) rfl⟩

/-- C7: with the clusterer's seed fixed (the source hard-wires
`random_state=42`), the pipeline output depends on nothing but the image,
the cluster count and the resolution: two runs on identical inputs produce
identical record sequences — colors, shares, wavelengths, energies, record
for record.  No hidden state exists in the embedding for a second run to
observe. -/
theorem C7_determinism {Image : Type}
    (resize : Image → ℕ → List (ℚ × ℚ × ℚ))
    (km : List (ℚ × ℚ × ℚ) → ℕ → ℕ → List ℕ × List (ℚ × ℚ × ℚ))
    (img1 img2 : Image) (k1 k2 r1 r2 : ℕ)
    (hi : img1 = img2) (hk : k1 = k2) (hr : r1 = r2) :
    analysisRecords resize km img1 k1 r1 = analysisRecords resize km img2 k2 r2 := by
  subst hi
  subst hk
  subst hr
  rfl

/-- Witness for C7: two runs on the same concrete image and configuration. -/
theorem C7_determinism_witness :
    analysisRecords demoResize demoKm () 2 2 = analysisRecords demoResize demoKm () 2 2 :=
  C7_determinism demoResize demoKm () () 2 2 2 2 rfl rfl rfl

/-- C10: every record the pipeline builds has its energy bounded by the
energies at the two ends of the clamped wavelength band: between
6.626e-34 × 3.00e8 / 750e-9 × 6.242e18 (≈1.654 eV, at 750 nm) and
6.626e-34 × 3.00e8 / 380e-9 × 6.242e18 (≈3.266 eV, at 380 nm), because the
record's wavelength always lies in [380, 750]. -/
theorem C10_energy_bounds (hist : List ℚ) (centers : List (ℚ × ℚ × ℚ))
    (rec : RecordM) (hrec : rec ∈ data_list hist centers) :
    (6.626e-34 * 3.00e8 : ℚ) / (750 * 1e-9) * 6.242e18 ≤ rec.energy ∧
    rec.energy ≤ (6.626e-34 * 3.00e8 : ℚ) / (380 * 1e-9) * 6.242e18 := by
  rw [data_list, List.mem_map] at hrec
  obtain ⟨pc, hpc, rfl⟩ := hrec
  set w := rgb_to_wavelength (astype_int pc.2.1) (astype_int pc.2.2.1)
    (astype_int pc.2.2.2) with hw
  have h380 : (380 : ℚ) ≤ w := rgb_to_wavelength_ge _ _ _
  have h750 : w ≤ 750 := rgb_to_wavelength_le _ _ _
  have hpos : (0 : ℚ) < w := by linarith
  have henergy : (mkRecord pc.1 pc.2).energy
      = (6.626e-34 * 3.00e8 : ℚ) / (w * 1e-9) * 6.242e18 := by
    show (calculate_photon_energy w).getD 0 = _
    rw [C2_photon_energy_formula w hpos]
    rfl
  rw [henergy]
  exact ⟨by gcongr, by gcongr⟩

/-- Witness for C10 at the concrete one-cluster pipeline output for the
greyscale center (120, 120, 120). -/
theorem C10_energy_bounds_witness :
    (6.626e-34 * 3.00e8 : ℚ) / (750 * 1e-9) * 6.242e18 ≤
      (mkRecord 1 ((120 : ℚ), (120 : ℚ), (120 : ℚ))).energy ∧
    (mkRecord 1 ((120 : ℚ), (120 : ℚ), (120 : ℚ))).energy ≤
      (6.626e-34 * 3.00e8 : ℚ) / (380 * 1e-9) * 6.242e18 :=
  C10_energy_bounds [1] [((120 : ℚ), (120 : ℚ), (120 : ℚ))] _
    (by simp [data_list])

end ColorAnalyzer
